import Mathlib

/-!
# libpuny.b/eprintf.c : diagnostics, allocation wrappers and the cleanup guard

A shallow embedding of `src/libpuny.b/eprintf.c`.

* The process state the file owns (`name`, `Cleanup`, `Stacktrace`) and the
  parts of the C runtime it reads (`errno`, the `strerror` table) are the
  fields of `World`.  Everything the process does that can be observed from
  outside is appended to `World.trace`, one event per character written to
  stderr, so the order of output, stack trace and callback invocation is kept.
* A C function either returns to its caller or terminates the process:
  `Outcome.ret` and `Outcome.exit`.  Code that follows a call is only run when
  the call returned (`andThen`).
* A cleanup callback is client code.  A `Cleanup_f` value is the address of a
  client function, or `NULL`, and `code : FnAddr → List Action` gives the body
  of the function at an address: opaque work, and calls back into the
  termination paths of this library (pr_fatal, eprintf, a caught signal),
  which is the re-entrancy the comment in `call_cleanup` is about.  A callback
  that calls `set_cleanup` while it runs makes a registration of its own; such
  client code is not part of this development, which follows one registration
  from `set_cleanup` to its end.
* Because a callback may re-enter `call_cleanup`, that function is recursive
  through client code and carries a bound `fuel` on the nesting depth of
  callback invocations; `none` means the bound was reached.  A bound of one
  is enough for every run, which the theorems show by giving the result for
  `fuel + 1`.
* `fatal` (eprintf.h), `stacktrace_err` (debug.h) and the C library are not in
  the sources: `fatal` is taken from the spec, a stack trace is one event of
  the trace, and `vformat` gives the printf conversions the file uses.  The
  calls that flush and write are taken to succeed, and so to leave errno as it
  is.  The code reads errno at the point where it writes the error context and
  keeps no copy of the value it was called with.
-/

namespace Punybench

/-- C strings, as the list of their characters (terminator left out). -/
abbrev Str := List Char

/-- The address of a client function. -/
abbrev FnAddr := Nat

/-- Values of type `Cleanup_f`, a pointer to a function: the address of a
client function, or `none` for `NULL`. -/
abbrev Cleanup_f := Option FnAddr

/-- Pointers returned by the allocator; `none` is `NULL`. -/
abbrev Ptr := Option Nat

/-- The signals named in `catch_signals`. -/
inductive Signal
  | SIGHUP | SIGINT | SIGQUIT | SIGILL | SIGTRAP | SIGABRT | SIGBUS
  | SIGFPE | SIGKILL | SIGSEGV | SIGPIPE | SIGSTOP | SIGTSTP
  deriving DecidableEq, Repr

/-- Variadic arguments handed to the printf family. -/
inductive Arg
  | str (s : Str)
  | int (i : Int)
  | size (n : Nat)
  deriving DecidableEq, Repr

/-- Observable events of a run, in the order they happen. -/
inductive Event
  | flush
  | err (c : Char)
  | stack
  | enter (cb : FnAddr)
  | work (tag : Nat)
  | memset (p : Ptr) (n : Nat)
  deriving DecidableEq, Repr

/-- Process state: the globals of eprintf.c, the C runtime state it reads,
and the trace of what the process has done so far. -/
structure World where
  name : Option Str
  Cleanup : Cleanup_f
  Stacktrace : Bool
  errno : Int
  strerror : Int → Str
  signals : List Signal
  trace : List Event

/-- How a call ends: it returns a value, or the process has terminated with
an exit code. -/
inductive Outcome (α : Type)
  | ret (a : α) (w : World)
  | exit (code : Int) (w : World)

/-- The state a call leaves behind. -/
def Outcome.world {α : Type} : Outcome α → World
  | .ret _ w => w
  | .exit _ w => w

/-- Sequencing of C statements: the continuation runs only if the first call
returned; a terminated process (or an exhausted bound) stays as it is. -/
def andThen {α β : Type} (m : Option (Outcome α))
    (k : α → World → Option (Outcome β)) : Option (Outcome β) :=
  match m with
  | none => none
  | some (.exit c w) => some (.exit c w)
  | some (.ret a w) => k a w

/-- The call `exit(code)`. -/
def exit {α : Type} (code : Int) (w : World) : Option (Outcome α) :=
  some (.exit code w)

/-- Decimal digits of a natural number. -/
def decimal (n : Nat) : Str := Nat.toDigits 10 n

/-- The conversion `%d` applied to an `int`. -/
def decimalInt (i : Int) : Str :=
  if i < 0 then '-' :: decimal i.natAbs else decimal i.toNat

/-- The printf conversions used in eprintf.c: `%s`, `%d`, `%u` and `%%`.
The conversion `%u` fetches an `unsigned int`, 32 bits wide.  The allocation
wrappers hand it a `size_t`, which has 64 bits on the 64-bit builds of the
platforms the file names; what is printed then is the low 32 bits of the
argument.  A directive with no argument of a matching kind is undefined in C;
here it is copied to the output, and so is any other directive. -/
def vformat : Str → List Arg → Str
  | [], _ => []
  | c :: rest, args =>
    if c = '%' then
      match rest, args with
      | 's' :: rest', Arg.str s :: args' => s ++ vformat rest' args'
      | 'd' :: rest', Arg.int i :: args' => decimalInt i ++ vformat rest' args'
      | 'u' :: rest', Arg.size n :: args' => decimal (n % 2 ^ 32) ++ vformat rest' args'
      | '%' :: rest', args' => '%' :: vformat rest' args'
      | rest', args' => '%' :: vformat rest' args'
    else c :: vformat rest args

/-- The call `fflush(stdout)`.  The call is taken to succeed, and a call that
succeeds leaves errno as it is; a failing flush, which would set errno, is not
modelled. -/
def fflush_stdout (w : World) : World :=
  { w with trace := w.trace ++ [Event.flush] }

/-- The calls `fprintf(stderr, fmt, ...)` and `vfprintf(stderr, fmt, args)`,
taken to succeed like the flush, so that errno is left as it is. -/
def fprintf_stderr (fmt : Str) (args : List Arg) (w : World) : World :=
  { w with trace := w.trace ++ (vformat fmt args).map Event.err }

/-- The stack trace printer of debug.h, seen as one event. -/
def stacktrace_err (w : World) : World :=
  { w with trace := w.trace ++ [Event.stack] }

/-- The function getprogname: return stored name of program. -/
def getprogname (w : World) : Option Str := w.name

/-- The test `fmt[0] != '\0' && fmt[strlen(fmt)-1] == ':'`. -/
def colon_test (fmt : Str) : Bool :=
  !fmt.isEmpty && fmt[fmt.length - 1]? == some ':'

/-- The function pr_display: print debug message. -/
def pr_display (file func : Str) (line : Int) (fmt : Option Str) (args : List Arg)
    (w : World) : Outcome Unit :=
  let w := fflush_stdout w
  let w := match getprogname w with
    | some n => fprintf_stderr "%s ".toList [.str n] w
    | none => w
  let w := fprintf_stderr "%s:%s<%d> ".toList [.str file, .str func, .int line] w
  let w := match fmt with
    | some f =>
      let w := fprintf_stderr f args w
      if colon_test f then
        fprintf_stderr " %s<%d>".toList [.str (w.strerror w.errno), .int w.errno] w
      else w
    | none => w
  let w := fprintf_stderr "\n".toList [] w
  .ret () w

/-- The function pr_fatal: print error message and exit.  `cc` is the
function `call_cleanup` the code is linked against. -/
def pr_fatal (cc : World → Option (Outcome Unit)) (file func : Str) (line : Int)
    (fmt : Option Str) (args : List Arg) (w : World) : Option (Outcome Unit) :=
  let w := fflush_stdout w
  let w := fprintf_stderr "Fatal ".toList [] w
  let w := match getprogname w with
    | some n => fprintf_stderr "%s ".toList [.str n] w
    | none => w
  let w := fprintf_stderr "%s:%s<%d> ".toList [.str file, .str func, .int line] w
  let w := match fmt with
    | some f =>
      let w := fprintf_stderr f args w
      if colon_test f then
        fprintf_stderr " %s<%d>".toList [.str (w.strerror w.errno), .int w.errno] w
      else w
    | none => w
  let w := fprintf_stderr "\n".toList [] w
  let w := if w.Stacktrace then stacktrace_err w else w
  andThen (cc w) fun _ w =>
  exit 2 w

/-- The function pr_warn: print warning message. -/
def pr_warn (file func : Str) (line : Int) (fmt : Option Str) (args : List Arg)
    (w : World) : Outcome Unit :=
  let w := fflush_stdout w
  let w := fprintf_stderr "Warn ".toList [] w
  let w := match getprogname w with
    | some n => fprintf_stderr "%s ".toList [.str n] w
    | none => w
  let w := fprintf_stderr "%s:%s<%d> ".toList [.str file, .str func, .int line] w
  let w := match fmt with
    | some f =>
      let w := fprintf_stderr f args w
      if colon_test f then
        fprintf_stderr " %s<%d>".toList [.str (w.strerror w.errno), .int w.errno] w
      else w
    | none => w
  let w := fprintf_stderr "\n".toList [] w
  .ret () w

/-- The function pr_usage: print usage message. -/
def pr_usage (fmt : Option Str) (args : List Arg) (w : World) : Outcome Unit :=
  let w := fflush_stdout w
  let w := fprintf_stderr "Usage: ".toList [] w
  let w := match getprogname w with
    | some n => fprintf_stderr "%s ".toList [.str n] w
    | none => w
  let w := match fmt with
    | some f => fprintf_stderr f args w
    | none => w
  let w := fprintf_stderr "\n".toList [] w
  .exit 2 w

/-- The function eprintf: print error message and exit. -/
def eprintf (cc : World → Option (Outcome Unit)) (fmt : Option Str) (args : List Arg)
    (w : World) : Option (Outcome Unit) :=
  let w := fflush_stdout w
  let w := match getprogname w with
    | some n => fprintf_stderr "%s: ".toList [.str n] w
    | none => w
  let w := match fmt with
    | some f =>
      let w := fprintf_stderr f args w
      if colon_test f then
        fprintf_stderr " %s<%d>".toList [.str (w.strerror w.errno), .int w.errno] w
      else w
    | none => w
  let w := fprintf_stderr "\n".toList [] w
  andThen (cc w) fun _ w =>
  exit 2 w

/-- The function weprintf: print warning message. -/
def weprintf (fmt : Option Str) (args : List Arg) (w : World) : Outcome Unit :=
  let w := fflush_stdout w
  let w := fprintf_stderr "warning: ".toList [] w
  let w := match getprogname w with
    | some n => fprintf_stderr "%s: ".toList [.str n] w
    | none => w
  let w := match fmt with
    | some f =>
      let w := fprintf_stderr f args w
      if colon_test f then
        fprintf_stderr " %s<%d>".toList [.str (w.strerror w.errno), .int w.errno] w
      else w
    | none => w
  let w := fprintf_stderr "\n".toList [] w
  .ret () w

/-- The signal handler caught_signal. -/
def caught_signal (cc : World → Option (Outcome Unit)) (_sig : Signal)
    (w : World) : Option (Outcome Unit) :=
  andThen (cc w) fun _ w =>
  exit 2 w

/-- The ways into the termination sequence: the fatal diagnostic, eprintf,
and a signal that caught_signal handles. -/
inductive TermPath
  | pr_fatal (file func : Str) (line : Int) (fmt : Str) (args : List Arg)
  | eprintf (fmt : Str) (args : List Arg)
  | signal (sig : Signal)
  deriving DecidableEq, Repr

/-- Taking a termination path. -/
def run_path (cc : World → Option (Outcome Unit)) (p : TermPath) (w : World) :
    Option (Outcome Unit) :=
  match p with
  | .pr_fatal file func line fmt args => pr_fatal cc file func line (some fmt) args w
  | .eprintf fmt args => eprintf cc (some fmt) args w
  | .signal sig => caught_signal cc sig w

/-- What the body of a cleanup callback may do: opaque work of its own, and
calls into this library that take a termination path. -/
inductive Action
  | work (tag : Nat)
  | call (p : TermPath)
  deriving DecidableEq, Repr

/-- One step of client code. -/
def run_action (cc : World → Option (Outcome Unit)) (a : Action) (w : World) :
    Option (Outcome Unit) :=
  match a with
  | .work tag => some (.ret () { w with trace := w.trace ++ [Event.work tag] })
  | .call p => run_path cc p w

/-- A body of client code, statement by statement. -/
def run_body (cc : World → Option (Outcome Unit)) :
    List Action → World → Option (Outcome Unit)
  | [], w => some (.ret () w)
  | a :: rest, w => andThen (run_action cc a w) fun _ w => run_body cc rest w

/-- The function call_cleanup: read the registration, clear it, then call
what was registered. -/
def call_cleanup (code : FnAddr → List Action) : Nat → World → Option (Outcome Unit)
  | fuel, w =>
    let cleanup := w.Cleanup
    let w := { w with Cleanup := none }
    match cleanup with
    | none => some (.ret () w)
    | some cb =>
      match fuel with
      | 0 => none
      | fuel + 1 =>
        run_body (call_cleanup code fuel) (code cb)
          { w with trace := w.trace ++ [Event.enter cb] }

/-- The function catch_signals: `signal(sig, caught_signal)` for each of the
thirteen signals, in the order of the source. -/
def catch_signals (w : World) : World :=
  { w with signals := w.signals ++
      [.SIGHUP, .SIGINT, .SIGQUIT, .SIGILL, .SIGTRAP, .SIGABRT, .SIGBUS,
       .SIGFPE, .SIGKILL, .SIGSEGV, .SIGPIPE, .SIGSTOP, .SIGTSTP] }

/-- The function set_cleanup. -/
def set_cleanup (cleanup : Cleanup_f) (w : World) : World :=
  let w := { w with Cleanup := cleanup }
  catch_signals w

/-- The function clear_cleanup. -/
def clear_cleanup (w : World) : World :=
  { w with Cleanup := none }

/-- The function emalloc: malloc and report if error.  `malloc` stands for
the allocator: the pointer it answers for a size, `none` for `NULL`. -/
def emalloc (cc : World → Option (Outcome Unit)) (malloc : Nat → Ptr) (n : Nat)
    (w : World) : Option (Outcome Ptr) :=
  let p := malloc n
  andThen (if p = none then
      eprintf cc (some "malloc of %u bytes failed:".toList) [.size n] w
    else some (.ret () w)) fun _ w =>
  some (.ret p w)

/-- The function ezalloc: malloc, zero, and report if error. -/
def ezalloc (cc : World → Option (Outcome Unit)) (malloc : Nat → Ptr) (n : Nat)
    (w : World) : Option (Outcome Ptr) :=
  let p := malloc n
  andThen (if p = none then
      eprintf cc (some "malloc of %u bytes failed:".toList) [.size n] w
    else some (.ret () w)) fun _ w =>
  let w := { w with trace := w.trace ++ [Event.memset p n] }
  some (.ret p w)

/-- The function erealloc: realloc and report if error.  `realloc` stands
for the allocator. -/
def erealloc (cc : World → Option (Outcome Unit)) (realloc : Ptr → Nat → Ptr) (vp : Ptr)
    (n : Nat) (w : World) : Option (Outcome Ptr) :=
  let p := realloc vp n
  andThen (if p = none then
      eprintf cc (some "realloc of %u bytes failed:".toList) [.size n] w
    else some (.ret () w)) fun _ w =>
  some (.ret p w)

/-- A source location, as `__FILE__`, `__FUNCTION__` and `__LINE__` give it. -/
structure Location where
  file : Str
  func : Str
  line : Int

/-- Modelled from the spec: the macro `fatal` of eprintf.h, which is not
among the sources.  The spec gives it as `fatal(location, format, args…)`,
the fatal diagnostic of section 4.1, so it is `pr_fatal` at the location of
the call. -/
def fatal (cc : World → Option (Outcome Unit)) (loc : Location) (fmt : Str)
    (args : List Arg) (w : World) : Option (Outcome Unit) :=
  pr_fatal cc loc.file loc.func loc.line (some fmt) args w

/-- The function esystem: execute a shell command, exit on error.  `rc` is
what `system(command)` answered; `loc1` and `loc2` are the locations of the
two uses of `fatal`. -/
def esystem (cc : World → Option (Outcome Unit)) (loc1 loc2 : Location) (command : Str)
    (rc : Int) (w : World) : Option (Outcome Unit) :=
  andThen (if rc = -1 then
      fatal cc loc1 "system: %s:".toList [.str command] w
    else some (.ret () w)) fun _ w =>
  andThen (if rc ≠ 0 then
      fatal cc loc2 "system: %s exit=%d".toList [.str command, .int rc] w
    else some (.ret () w)) fun _ w =>
  some (.ret () w)

/-! ## Vocabulary of the statements -/

/-- What a run has written to stderr. -/
def stderr_text (t : List Event) : Str :=
  t.filterMap fun e =>
    match e with
    | .err c => some c
    | _ => none

/-- The callbacks a run has invoked, in order. -/
def invocations (t : List Event) : List FnAddr :=
  t.filterMap fun e =>
    match e with
    | .enter cb => some cb
    | _ => none

/-- The state after flushing stdout and writing `text` to stderr. -/
def emit (text : Str) (w : World) : World :=
  { w with trace := w.trace ++ Event.flush :: text.map Event.err }

/-- The termination sequence shared by pr_fatal, eprintf and caught_signal:
`call_cleanup(); exit(2);`. -/
def terminate (cc : World → Option (Outcome Unit)) (w : World) : Option (Outcome Unit) :=
  andThen (cc w) fun _ w => exit 2 w

/-- The OS error context: a space, the description of the last error and
its code in angle brackets. -/
def errctx (w : World) : Str :=
  ' ' :: (w.strerror w.errno ++ '<' :: (decimalInt w.errno ++ ['>']))

/-- The program name segment `[progname ]`. -/
def progname_sp (w : World) : Str :=
  match w.name with
  | some n => n ++ [' ']
  | none => []

/-- The program name segment `[progname: ]`. -/
def progname_colon (w : World) : Str :=
  match w.name with
  | some n => n ++ [':', ' ']
  | none => []

/-- The location segment as the code writes it. -/
def location (file func : Str) (line : Int) : Str :=
  file ++ ':' :: (func ++ '<' :: (decimalInt line ++ ['>', ' ']))

/-- The formatted message, with the OS error context after it when the last
character of the format is a colon. -/
def message (fmt : Str) (args : List Arg) (w : World) : Str :=
  vformat fmt args ++ (if fmt.getLast? = some ':' then errctx w else [])

/-- Whether an action of client code enters a termination path. -/
def Action.triggers : Action → Bool
  | .work _ => false
  | .call _ => true

/-- Whether a call ended the process, and with which code. -/
def Outcome.status {α : Type} : Outcome α → Option Int
  | .ret _ _ => none
  | .exit c _ => some c

/-- The state in which a fatal diagnostic hands over to the termination
sequence: `Fatal `, the program name segment, the location and `text` stand on
one line of stderr, and the stack trace follows if the flag is set. -/
def fatal_printed (file func : Str) (line : Int) (text : Str) (w : World) : World :=
  { w with trace := w.trace ++ Event.flush ::
      (("Fatal ".toList ++ (progname_sp w ++ location file func line ++ text ++ ['\n'])).map
        Event.err ++ if w.Stacktrace then [Event.stack] else []) }

/-- The location segment as the pattern `(file:function<line>) ` of the spec
reads, parentheses included. -/
def location_in_parens (file func : Str) (line : Int) : Str :=
  '(' :: (file ++ ':' :: (func ++ '<' :: (decimalInt line ++ ['>', ')', ' '])))

/-- A text that carries the OS error context right before its final newline. -/
def ends_with_errctx (text : Str) (w : World) : Prop :=
  (errctx w ++ ['\n']) <:+ text

instance (text : Str) (w : World) : Decidable (ends_with_errctx text w) := by
  unfold ends_with_errctx
  infer_instance

/-! ## Concrete inputs -/

/-- A strerror table with the entries the examples use. -/
def example_strerror (e : Int) : Str :=
  if e = 2 then "No such file or directory".toList
  else if e = 12 then "Cannot allocate memory".toList
  else "Unknown error".toList

/-- A process named `tool` whose last error is ENOENT, nothing registered. -/
def example_world : World :=
  { name := some "tool".toList
    Cleanup := none
    Stacktrace := true
    errno := 2
    strerror := example_strerror
    signals := []
    trace := [] }

/-- Client code: the function at address 7 does some work, then calls
eprintf, and would do more work after it. -/
def example_code (cb : FnAddr) : List Action :=
  if cb = 7 then
    [.work 1, .call (.eprintf "cleanup failed".toList []), .work 2]
  else []

/-- The locations of the two uses of `fatal` in esystem. -/
def example_loc (line : Int) : Location :=
  { file := "eprintf.c".toList, func := "esystem".toList, line := line }

/-! ## Equations of the reporter -/

theorem colon_test_iff (fmt : Str) : colon_test fmt = true ↔ fmt.getLast? = some ':' := by
  cases fmt with
  | nil => simp [colon_test]
  | cons c cs => simp [colon_test, List.getLast?_eq_getElem?]

theorem pr_display_eq (file func : Str) (line : Int) (fmt : Str) (args : List Arg)
    (w : World) :
    pr_display file func line (some fmt) args w =
      .ret () (emit (progname_sp w ++ location file func line ++
        message fmt args w ++ ['\n']) w) := by
  have hc := colon_test_iff fmt
  cases hn : w.name <;> by_cases hl : fmt.getLast? = some ':' <;>
    simp_all [pr_display, emit, progname_sp, location, message, errctx, fflush_stdout,
      fprintf_stderr, getprogname, vformat]

theorem pr_warn_eq (file func : Str) (line : Int) (fmt : Str) (args : List Arg)
    (w : World) :
    pr_warn file func line (some fmt) args w =
      .ret () (emit ("Warn ".toList ++ progname_sp w ++ location file func line ++
        message fmt args w ++ ['\n']) w) := by
  have hc := colon_test_iff fmt
  cases hn : w.name <;> by_cases hl : fmt.getLast? = some ':' <;>
    simp_all [pr_warn, emit, progname_sp, location, message, errctx, fflush_stdout,
      fprintf_stderr, getprogname, vformat]

theorem weprintf_eq (fmt : Str) (args : List Arg) (w : World) :
    weprintf (some fmt) args w =
      .ret () (emit ("warning: ".toList ++ progname_colon w ++
        message fmt args w ++ ['\n']) w) := by
  have hc := colon_test_iff fmt
  cases hn : w.name <;> by_cases hl : fmt.getLast? = some ':' <;>
    simp_all [weprintf, emit, progname_colon, message, errctx, fflush_stdout,
      fprintf_stderr, getprogname, vformat]

theorem pr_usage_eq (fmt : Str) (args : List Arg) (w : World) :
    pr_usage (some fmt) args w =
      .exit 2 (emit ("Usage: ".toList ++ progname_sp w ++ vformat fmt args ++ ['\n']) w) := by
  cases hn : w.name <;>
    simp_all [pr_usage, emit, progname_sp, fflush_stdout, fprintf_stderr, getprogname, vformat]

theorem eprintf_eq (cc : World → Option (Outcome Unit)) (fmt : Str) (args : List Arg)
    (w : World) :
    eprintf cc (some fmt) args w =
      terminate cc (emit (progname_colon w ++ message fmt args w ++ ['\n']) w) := by
  have hc := colon_test_iff fmt
  cases hn : w.name <;> by_cases hl : fmt.getLast? = some ':' <;>
    simp_all [eprintf, terminate, emit, progname_colon, message, errctx, fflush_stdout,
      fprintf_stderr, getprogname, vformat]

theorem pr_fatal_eq (cc : World → Option (Outcome Unit)) (file func : Str) (line : Int)
    (fmt : Str) (args : List Arg) (w : World) :
    pr_fatal cc file func line (some fmt) args w =
      terminate cc (fatal_printed file func line (message fmt args w) w) := by
  have hc := colon_test_iff fmt
  cases hn : w.name <;> by_cases hl : fmt.getLast? = some ':' <;> cases hs : w.Stacktrace <;>
    simp_all [pr_fatal, terminate, fatal_printed, progname_sp, location, message, errctx,
      fflush_stdout, fprintf_stderr, getprogname, vformat, stacktrace_err]

/-! ## The cleanup guard -/

theorem invocations_append (s t : List Event) :
    invocations (s ++ t) = invocations s ++ invocations t := by
  simp [invocations, List.filterMap_append]

theorem invocations_errs (text : Str) : invocations (text.map Event.err) = [] := by
  induction text with
  | nil => rfl
  | cons c cs ih => simp [invocations]

theorem stderr_text_append (s t : List Event) :
    stderr_text (s ++ t) = stderr_text s ++ stderr_text t := by
  simp [stderr_text, List.filterMap_append]

theorem stderr_text_errs (text : Str) : stderr_text (text.map Event.err) = text := by
  induction text with
  | nil => rfl
  | cons c cs ih => simp_all [stderr_text]

theorem world_clear_of_none (w : World) (h : w.Cleanup = none) :
    { w with Cleanup := none } = w := by
  cases w
  simp_all

/-- With nothing registered the cleanup step returns at once, whatever the
bound, and leaves the state as it was. -/
theorem call_cleanup_none (code : FnAddr → List Action) (fuel : Nat) (w : World)
    (h : w.Cleanup = none) : call_cleanup code fuel w = some (.ret () w) := by
  unfold call_cleanup
  simp [h, world_clear_of_none w h]

theorem terminate_none (code : FnAddr → List Action) (fuel : Nat) (w : World)
    (h : w.Cleanup = none) : terminate (call_cleanup code fuel) w = some (.exit 2 w) := by
  simp [terminate, call_cleanup_none code fuel w h, andThen, exit]

theorem caught_signal_eq (cc : World → Option (Outcome Unit)) (sig : Signal) (w : World) :
    caught_signal cc sig w = terminate cc w := rfl

/-- A termination path taken with nothing registered writes its diagnostic,
invokes no callback and ends the process with code 2, whatever the bound. -/
theorem path_quiet (code : FnAddr → List Action) (fuel : Nat) (p : TermPath)
    (w : World) (h : w.Cleanup = none) :
    ∃ w', run_path (call_cleanup code fuel) p w = some (.exit 2 w') ∧ w'.Cleanup = none ∧
      ∃ tail, w'.trace = w.trace ++ tail ∧ invocations tail = [] := by
  cases p with
  | eprintf fmt args =>
    refine ⟨emit (progname_colon w ++ message fmt args w ++ ['\n']) w, ?_, ?_, ⟨_, rfl, ?_⟩⟩
    · show eprintf (call_cleanup code fuel) (some fmt) args w = _
      rw [eprintf_eq, terminate_none code fuel _ (by simpa [emit] using h)]
    · simpa [emit] using h
    · simp [invocations, List.filterMap_map]
  | pr_fatal file func line fmt args =>
    refine ⟨fatal_printed file func line (message fmt args w) w, ?_, ?_, ⟨_, rfl, ?_⟩⟩
    · show pr_fatal (call_cleanup code fuel) file func line (some fmt) args w = _
      rw [pr_fatal_eq, terminate_none code fuel _ (by simpa [fatal_printed] using h)]
    · simpa [fatal_printed] using h
    · cases w.Stacktrace <;> simp [invocations, List.filterMap_map, List.filterMap_append]
  | signal sig =>
    refine ⟨w, ?_, h, ⟨[], by simp, rfl⟩⟩
    show caught_signal (call_cleanup code fuel) sig w = _
    rw [caught_signal_eq, terminate_none code fuel _ h]

/-- A step of client code that starts with nothing registered invokes no
callback and leaves nothing registered; it ends the process with code 2
exactly when it is a call into a termination path. -/
theorem run_action_quiet (code : FnAddr → List Action) (fuel : Nat) (a : Action)
    (w : World) (h : w.Cleanup = none) :
    ∃ o, run_action (call_cleanup code fuel) a w = some o ∧ o.world.Cleanup = none ∧
      (∃ tail, o.world.trace = w.trace ++ tail ∧ invocations tail = []) ∧
      o.status = if a.triggers then some 2 else none := by
  cases a with
  | work tag =>
    exact ⟨_, rfl, h, ⟨[Event.work tag], rfl, rfl⟩, rfl⟩
  | call p =>
    obtain ⟨w', hrun, hc, ht⟩ := path_quiet code fuel p w h
    exact ⟨.exit 2 w', hrun, hc, ht, rfl⟩

/-- A body of client code that starts with nothing registered invokes no
callback; it ends the process, with code 2, exactly when it reaches a call
into a termination path. -/
theorem run_body_quiet (code : FnAddr → List Action) (fuel : Nat) (body : List Action) :
    ∀ w : World, w.Cleanup = none →
    ∃ o, run_body (call_cleanup code fuel) body w = some o ∧ o.world.Cleanup = none ∧
      (∃ tail, o.world.trace = w.trace ++ tail ∧ invocations tail = []) ∧
      o.status = if body.any Action.triggers then some 2 else none := by
  induction body with
  | nil =>
    intro w h
    exact ⟨.ret () w, rfl, h, ⟨[], by simp [Outcome.world], rfl⟩, rfl⟩
  | cons a rest ih =>
    intro w h
    obtain ⟨o, ho, hc, ⟨t1, ht1, hi1⟩, hs⟩ := run_action_quiet code fuel a w h
    cases o with
    | exit c w1 =>
      refine ⟨.exit c w1, ?_, hc, ⟨t1, ht1, hi1⟩, ?_⟩
      · simp [run_body, ho, andThen]
      · cases ha : a.triggers <;> simp_all [Outcome.status]
    | ret u w1 =>
      obtain ⟨o2, ho2, hc2, ⟨t2, ht2, hi2⟩, hs2⟩ := ih w1 hc
      refine ⟨o2, ?_, hc2, ⟨t1 ++ t2, ?_, ?_⟩, ?_⟩
      · simp [run_body, ho, andThen, ho2]
      · simp only [Outcome.world] at ht1
        rw [ht2, ht1, List.append_assoc]
      · rw [invocations_append, hi1, hi2]; rfl
      · cases ha : a.triggers <;> simp_all [Outcome.status]

/-- The cleanup step, with a bound that allows one invocation: it ends with
nothing registered, it has invoked what was registered and nothing else,
first thing, and it ends the process, with code 2, exactly when the callback
reaches a call into a termination path. -/
theorem call_cleanup_spec (code : FnAddr → List Action) (fuel : Nat) (w : World) :
    ∃ o, call_cleanup code (fuel + 1) w = some o ∧ o.world.Cleanup = none ∧
      (∃ tail, o.world.trace = w.trace ++ tail ∧ invocations tail = w.Cleanup.toList ∧
        tail.head? = w.Cleanup.map Event.enter) ∧
      (o.status = none ∨ o.status = some 2) := by
  cases hC : w.Cleanup with
  | none =>
    exact ⟨.ret () w, call_cleanup_none code _ w hC, hC,
      ⟨[], by simp [Outcome.world], rfl, rfl⟩, Or.inl rfl⟩
  | some cb =>
    obtain ⟨o, ho, hc, ⟨t, ht, hi⟩, hs⟩ := run_body_quiet code fuel (code cb)
      { w with Cleanup := none, trace := w.trace ++ [Event.enter cb] } rfl
    refine ⟨o, ?_, hc, ⟨Event.enter cb :: t, ?_, ?_, rfl⟩, ?_⟩
    · unfold call_cleanup
      simpa [hC] using ho
    · simpa using ht
    · simp [invocations] at hi ⊢
      simpa [invocations] using hi
    · by_cases hb : (code cb).any Action.triggers <;> simp_all

/-- The termination sequence ends the process with code 2, having invoked
what was registered, and nothing else, first thing. -/
theorem terminate_spec (code : FnAddr → List Action) (fuel : Nat) (w : World) :
    ∃ w', terminate (call_cleanup code (fuel + 1)) w = some (.exit 2 w') ∧ w'.Cleanup = none ∧
      ∃ tail, w'.trace = w.trace ++ tail ∧ invocations tail = w.Cleanup.toList ∧
        tail.head? = w.Cleanup.map Event.enter := by
  obtain ⟨o, ho, hc, ht, hs⟩ := call_cleanup_spec code fuel w
  cases o with
  | ret u w1 => exact ⟨w1, by simp [terminate, ho, andThen, exit], hc, ht⟩
  | exit c w1 =>
    have : c = 2 := by simpa [Outcome.status] using hs
    subst this
    exact ⟨w1, by simp [terminate, ho, andThen], hc, ht⟩

theorem invocations_emit (text : Str) (w : World) :
    invocations (emit text w).trace = invocations w.trace := by
  simp [emit, invocations, List.filterMap_append, List.filterMap_map]

theorem stderr_text_emit (text : Str) (w : World) :
    stderr_text (emit text w).trace = stderr_text w.trace ++ text := by
  rw [emit, stderr_text_append]
  show stderr_text w.trace ++ stderr_text (text.map Event.err) = _
  rw [stderr_text_errs]

theorem invocations_fatal_printed (file func : Str) (line : Int) (text : Str) (w : World) :
    invocations (fatal_printed file func line text w).trace = invocations w.trace := by
  cases h : w.Stacktrace <;>
    simp [fatal_printed, h, invocations, List.filterMap_append, List.filterMap_map]

/-- A termination path, with a bound that allows one invocation: the process
ends with code 2 and nothing registered, and what was registered has been
invoked once, nothing else. -/
theorem path_spec (code : FnAddr → List Action) (fuel : Nat) (p : TermPath) (w : World) :
    ∃ w', run_path (call_cleanup code (fuel + 1)) p w = some (.exit 2 w') ∧
      w'.Cleanup = none ∧ invocations w'.trace = invocations w.trace ++ w.Cleanup.toList := by
  cases p with
  | pr_fatal file func line fmt args =>
    obtain ⟨w', hrun, hc, tail, ht, hi, -⟩ :=
      terminate_spec code fuel (fatal_printed file func line (message fmt args w) w)
    refine ⟨w', ?_, hc, ?_⟩
    · show pr_fatal (call_cleanup code (fuel + 1)) file func line (some fmt) args w = _
      rw [pr_fatal_eq, hrun]
    · rw [ht, invocations_append, invocations_fatal_printed, hi]; rfl
  | eprintf fmt args =>
    obtain ⟨w', hrun, hc, tail, ht, hi, -⟩ :=
      terminate_spec code fuel (emit (progname_colon w ++ message fmt args w ++ ['\n']) w)
    refine ⟨w', ?_, hc, ?_⟩
    · show eprintf (call_cleanup code (fuel + 1)) (some fmt) args w = _
      rw [eprintf_eq, hrun]
    · rw [ht, invocations_append, invocations_emit, hi]; rfl
  | signal sig =>
    obtain ⟨w', hrun, hc, tail, ht, hi, -⟩ := terminate_spec code fuel w
    refine ⟨w', ?_, hc, ?_⟩
    · show caught_signal (call_cleanup code (fuel + 1)) sig w = _
      rw [caught_signal_eq, hrun]
    · rw [ht, invocations_append, hi]

/-! ## The claims on the cleanup guard -/

/-- Claim C1: after `set_cleanup(cb)`, two runs of the termination sequence in
a row invoke `cb` exactly once in total.  The first run of `call_cleanup`
invokes `cb` (and nothing else) and leaves the registration empty; a second
run from the state it left finds nothing registered, invokes nothing and
changes nothing.  The same holds when the two runs are taken through any of
the termination paths (pr_fatal, eprintf, a caught signal). -/
theorem cleanup_invoked_once_over_two_runs (code : FnAddr → List Action) (cb : FnAddr)
    (w : World) (fuel : Nat) (p1 p2 : TermPath) :
    (∃ o, call_cleanup code (fuel + 1) (set_cleanup (some cb) w) = some o ∧
      invocations o.world.trace = invocations w.trace ++ [cb] ∧
      o.world.Cleanup = none ∧
      call_cleanup code (fuel + 1) o.world = some (.ret () o.world)) ∧
    (∃ w1 w2,
      run_path (call_cleanup code (fuel + 1)) p1 (set_cleanup (some cb) w) =
        some (.exit 2 w1) ∧
      invocations w1.trace = invocations w.trace ++ [cb] ∧
      w1.Cleanup = none ∧
      run_path (call_cleanup code (fuel + 1)) p2 w1 = some (.exit 2 w2) ∧
      invocations w2.trace = invocations w1.trace) := by
  constructor
  · obtain ⟨o, ho, hc, ⟨tail, ht, hi, -⟩, -⟩ :=
      call_cleanup_spec code fuel (set_cleanup (some cb) w)
    refine ⟨o, ho, ?_, hc, call_cleanup_none code _ _ hc⟩
    rw [ht, invocations_append, hi]
    rfl
  · obtain ⟨w1, h1, hc1, hi1⟩ := path_spec code fuel p1 (set_cleanup (some cb) w)
    obtain ⟨w2, h2, -, hi2⟩ := path_spec code fuel p2 w1
    refine ⟨w1, w2, h1, hi1, hc1, h2, ?_⟩
    rw [hi2, hc1]
    simp

/-- Claim C2: `call_cleanup` clears the registration before it invokes the
callback, so for every callback `cb` registered by `set_cleanup(cb)` the body
of `cb` starts running in a state `start` whose registration is already empty.
Over the whole run `cb` is invoked once and no other callback is invoked, and
the process ends, with code 2, exactly when `cb` takes a termination path.
In detail, when `cb`, after work of its own (`pre`), takes a termination path
`p` (eprintf, pr_fatal or a caught signal), the nested termination sequence
starts with nothing registered: it invokes no callback, `cb` is not invoked a
second time, and the process ends there with code 2. -/
theorem cleanup_not_reentered (code : FnAddr → List Action) (cb : FnAddr) (w : World)
    (fuel : Nat) :
    ∃ start o,
      start.Cleanup = none ∧ start.trace = w.trace ++ [Event.enter cb] ∧
      call_cleanup code (fuel + 1) (set_cleanup (some cb) w) =
        run_body (call_cleanup code fuel) (code cb) start ∧
      call_cleanup code (fuel + 1) (set_cleanup (some cb) w) = some o ∧
      invocations o.world.trace = invocations w.trace ++ [cb] ∧
      o.status = (if (code cb).any Action.triggers then some 2 else none) ∧
      ∀ (pre post : List Action) (p : TermPath),
        code cb = pre ++ Action.call p :: post → pre.any Action.triggers = false →
        ∃ w1, run_body (call_cleanup code fuel) pre start = some (.ret () w1) ∧
          w1.Cleanup = none ∧
          run_path (call_cleanup code fuel) p w1 = some (.exit 2 o.world) ∧
          o = .exit 2 o.world ∧
          invocations o.world.trace = invocations w1.trace := by
  have hstart : call_cleanup code (fuel + 1) (set_cleanup (some cb) w) =
      run_body (call_cleanup code fuel) (code cb)
        { set_cleanup (some cb) w with Cleanup := none, trace := w.trace ++ [Event.enter cb] } := by
    unfold call_cleanup
    simp [set_cleanup, catch_signals]
  obtain ⟨o, ho, -, ⟨t, ht, hi⟩, hs⟩ := run_body_quiet code fuel (code cb)
    { set_cleanup (some cb) w with Cleanup := none, trace := w.trace ++ [Event.enter cb] } rfl
  refine ⟨_, o, rfl, rfl, hstart, hstart.trans ho, ?_, hs, ?_⟩
  · rw [ht, invocations_append, invocations_append, hi]
    simp [invocations]
  intro pre post p hbody hpre
  obtain ⟨o1, ho1, hc1, -, hs1⟩ := run_body_quiet code fuel pre
    { set_cleanup (some cb) w with Cleanup := none, trace := w.trace ++ [Event.enter cb] } rfl
  cases o1 with
  | exit c w1 => simp [hpre, Outcome.status] at hs1
  | ret u w1 =>
    obtain ⟨w2, h2, -, t2, ht2, hi2⟩ := path_quiet code fuel p w1 hc1
    have hrun : ∀ (l : List Action) (v : World),
        run_body (call_cleanup code fuel) l v = some (.ret () w1) →
        run_body (call_cleanup code fuel) (l ++ Action.call p :: post) v = some (.exit 2 w2) := by
      intro l
      induction l with
      | nil =>
        intro v hv
        simp only [run_body, Option.some.injEq, Outcome.ret.injEq, true_and] at hv
        subst hv
        simp [run_body, run_action, h2, andThen]
      | cons a l ih =>
        intro v hv
        simp only [run_body, List.cons_append] at hv ⊢
        cases hra : run_action (call_cleanup code fuel) a v with
        | none => simp [hra, andThen] at hv
        | some o' =>
          cases o' with
          | exit c v1 => simp [hra, andThen] at hv
          | ret u v1 =>
            simp only [hra, andThen] at hv ⊢
            exact ih v1 hv
    have ho2 : o = .exit 2 w2 := by
      have := hrun pre _ ho1
      rw [← hbody, ho] at this
      exact Option.some.inj this
    subst ho2
    refine ⟨w1, ho1, hc1, h2, rfl, ?_⟩
    show invocations w2.trace = invocations w1.trace
    rw [ht2, invocations_append, hi2]
    simp

/-- Witness of claim C2: the callback at address 7 works, calls eprintf, and
is not invoked again by the nested termination sequence; the work it would
have done after the call is not in the trace. -/
theorem cleanup_not_reentered_witness :
    ∃ w1 w2,
      run_path (call_cleanup example_code 0) (.eprintf "cleanup failed".toList []) w1 =
        some (.exit 2 w2) ∧
      call_cleanup example_code (0 + 1) (set_cleanup (some 7) example_world) = some (.exit 2 w2) ∧
      invocations w2.trace = [7] ∧
      invocations w2.trace = invocations w1.trace ∧
      Event.work 2 ∉ w2.trace := by
  obtain ⟨start, o, -, -, -, ho, hi, -, h⟩ :=
    cleanup_not_reentered example_code 7 example_world 0
  obtain ⟨w1, -, -, hp, hexit, hinv⟩ :=
    h [Action.work 1] [Action.work 2] (.eprintf "cleanup failed".toList []) rfl rfl
  refine ⟨w1, o.world, hp, ?_, hi, hinv, ?_⟩
  · rw [ho, ← hexit]
  · have hval : call_cleanup example_code (0 + 1) (set_cleanup (some 7) example_world) =
        some (.exit 2 (emit (progname_colon example_world ++
          message "cleanup failed".toList [] example_world ++ ['\n'])
          { set_cleanup (some 7) example_world with
            Cleanup := none, trace := [Event.enter 7, Event.work 1] })) := rfl
    rw [ho] at hval
    have hw := congrArg (fun r => (r.map Outcome.world).map World.trace) hval
    simp only [Option.map_some'] at hw
    have hw2 : o.world.trace = (emit (progname_colon example_world ++
          message "cleanup failed".toList [] example_world ++ ['\n'])
          { set_cleanup (some 7) example_world with
            Cleanup := none, trace := [Event.enter 7, Event.work 1] }).trace := by
      simpa [Outcome.world] using hw
    rw [hw2]
    decide

/-- Claim C3: after `set_cleanup(cb)` followed by `clear_cleanup()` the
registration is empty, and every termination path taken from there (pr_fatal,
eprintf, a caught signal, all through `call_cleanup`) ends the process without
invoking `cb` or anything else.  `clear_cleanup` itself invokes nothing,
whether or not a callback was registered: it leaves the trace as it was. -/
theorem clear_cleanup_disarms (code : FnAddr → List Action) (fuel : Nat) (cb : FnAddr)
    (w : World) (p : TermPath) :
    (clear_cleanup w).Cleanup = none ∧ (clear_cleanup w).trace = w.trace ∧
    (clear_cleanup (set_cleanup (some cb) w)).Cleanup = none ∧
    (clear_cleanup (set_cleanup (some cb) w)).trace = w.trace ∧
    call_cleanup code fuel (clear_cleanup (set_cleanup (some cb) w)) =
      some (.ret () (clear_cleanup (set_cleanup (some cb) w))) ∧
    ∃ w', run_path (call_cleanup code fuel) p (clear_cleanup (set_cleanup (some cb) w)) =
        some (.exit 2 w') ∧
      invocations w'.trace = invocations w.trace ∧ w'.Cleanup = none := by
  refine ⟨rfl, rfl, rfl, rfl, call_cleanup_none code fuel _ rfl, ?_⟩
  obtain ⟨w', hrun, hc, tail, ht, hi⟩ :=
    path_quiet code fuel p (clear_cleanup (set_cleanup (some cb) w)) rfl
  refine ⟨w', hrun, ?_, hc⟩
  rw [ht, invocations_append, hi]
  simp [clear_cleanup, set_cleanup, catch_signals]

/-! ## The claims on the reporter -/

/-- Counterexample to claim C4 as stated: the format `bad option:` ends in a
colon, yet what pr_usage writes does not carry the OS error context before
its final newline. -/
theorem pr_usage_writes_no_error_context :
    "bad option:".toList.getLast? = some ':' ∧
    stderr_text (pr_usage (some "bad option:".toList) [] example_world).world.trace =
      "Usage: tool bad option:\n".toList ∧
    ¬ ends_with_errctx
      (stderr_text (pr_usage (some "bad option:".toList) [] example_world).world.trace)
      example_world := by
  decide

/-- The state an operation is in when it comes to the error context, after the
flush of stdout and the writing of `text`, has the errno and the strerror
table of the state `w` it was called in, because the library calls of this
development all succeed. -/
theorem errctx_emit (text : Str) (w : World) : errctx (emit text w) = errctx w := rfl

/-- Claim C4, amended: for pr_display, pr_warn, pr_fatal, eprintf and weprintf
and every format, the line written is the leading segments and the rendered
message, followed by the OS error context ` <strerror(errno)><errno>` exactly
when the last character of the format itself is a colon, and then the newline.
The context is the one of the state in which the operation writes it, reached
by flushing stdout and writing the segments and the message (`emit` of that
text): the code reads errno there and keeps no copy of the errno it was called
with.  pr_usage writes the rendered message and the newline with no error
context, whatever the format. -/
theorem error_context_follows_trailing_colon (cc : World → Option (Outcome Unit))
    (file func : Str) (line : Int) (fmt : Str) (args : List Arg) (w : World) :
    (∀ v : World,
      errctx v = ' ' :: (v.strerror v.errno ++ '<' :: (decimalInt v.errno ++ ['>']))) ∧
    pr_display file func line (some fmt) args w =
      .ret () (emit (progname_sp w ++ location file func line ++ vformat fmt args ++
        (if fmt.getLast? = some ':' then
          errctx (emit (progname_sp w ++ location file func line ++ vformat fmt args) w)
        else []) ++ ['\n']) w) ∧
    pr_warn file func line (some fmt) args w =
      .ret () (emit ("Warn ".toList ++ progname_sp w ++ location file func line ++
        vformat fmt args ++
        (if fmt.getLast? = some ':' then
          errctx (emit ("Warn ".toList ++ progname_sp w ++ location file func line ++
            vformat fmt args) w)
        else []) ++ ['\n']) w) ∧
    pr_fatal cc file func line (some fmt) args w =
      terminate cc (fatal_printed file func line (vformat fmt args ++
        (if fmt.getLast? = some ':' then
          errctx (emit ("Fatal ".toList ++ progname_sp w ++ location file func line ++
            vformat fmt args) w)
        else [])) w) ∧
    eprintf cc (some fmt) args w =
      terminate cc (emit (progname_colon w ++ vformat fmt args ++
        (if fmt.getLast? = some ':' then
          errctx (emit (progname_colon w ++ vformat fmt args) w)
        else []) ++ ['\n']) w) ∧
    weprintf (some fmt) args w =
      .ret () (emit ("warning: ".toList ++ progname_colon w ++ vformat fmt args ++
        (if fmt.getLast? = some ':' then
          errctx (emit ("warning: ".toList ++ progname_colon w ++ vformat fmt args) w)
        else []) ++ ['\n']) w) ∧
    pr_usage (some fmt) args w =
      .exit 2 (emit ("Usage: ".toList ++ progname_sp w ++ vformat fmt args ++ ['\n']) w) := by
  refine ⟨fun _ => rfl, ?_, ?_, ?_, ?_, ?_, pr_usage_eq fmt args w⟩
  · rw [pr_display_eq]
    simp only [message, errctx_emit, List.append_assoc]
  · rw [pr_warn_eq]
    simp only [message, errctx_emit, List.append_assoc]
  · rw [pr_fatal_eq]
    simp only [message, errctx_emit]
  · rw [eprintf_eq]
    simp only [message, errctx_emit, List.append_assoc]
  · rw [weprintf_eq]
    simp only [message, errctx_emit, List.append_assoc]

/-- Counterexample to claim C5 as stated: in the scenario the bytes written
are not `tool: open /tmp/x No such file or directory<2>\n`; the colon of the
format is written too. -/
theorem eprintf_scenario_differs :
    ∃ w', eprintf (call_cleanup example_code 1) (some "open %s:".toList)
        [.str "/tmp/x".toList] example_world = some (.exit 2 w') ∧
      stderr_text w'.trace ≠ "tool: open /tmp/x No such file or directory<2>\n".toList :=
  ⟨_, rfl, by decide⟩

/-- Claim C5, amended: with the program name `tool` and the last error 2,
described as `No such file or directory`, the call
`eprintf("open %s:", "/tmp/x")` writes to stderr exactly the bytes
`tool: open /tmp/x: No such file or directory<2>\n` (the colon of the format
included), then runs the termination sequence, and the process ends with exit
code 2. -/
theorem eprintf_scenario (code : FnAddr → List Action) (fuel : Nat) (w : World)
    (hname : w.name = some "tool".toList) (herrno : w.errno = 2)
    (hdesc : w.strerror 2 = "No such file or directory".toList) :
    eprintf (call_cleanup code (fuel + 1)) (some "open %s:".toList) [.str "/tmp/x".toList] w =
      terminate (call_cleanup code (fuel + 1))
        (emit "tool: open /tmp/x: No such file or directory<2>\n".toList w) ∧
    ∃ w', eprintf (call_cleanup code (fuel + 1)) (some "open %s:".toList)
        [.str "/tmp/x".toList] w = some (.exit 2 w') := by
  have heq : progname_colon w ++ message "open %s:".toList [.str "/tmp/x".toList] w ++ ['\n'] =
      "tool: open /tmp/x: No such file or directory<2>\n".toList := by
    simp [progname_colon, message, errctx, hname, herrno, hdesc, vformat]
    decide
  rw [eprintf_eq, heq]
  obtain ⟨w', hrun, -⟩ := terminate_spec code fuel
    (emit "tool: open /tmp/x: No such file or directory<2>\n".toList w)
  exact ⟨rfl, w', hrun⟩

/-- Witness of claim C5: the scenario in a process with nothing registered. -/
theorem eprintf_scenario_witness :
    example_world.name = some "tool".toList ∧ example_world.errno = 2 ∧
    example_world.strerror 2 = "No such file or directory".toList ∧
    eprintf (call_cleanup example_code (0 + 1)) (some "open %s:".toList)
        [.str "/tmp/x".toList] example_world =
      terminate (call_cleanup example_code (0 + 1))
        (emit "tool: open /tmp/x: No such file or directory<2>\n".toList example_world) ∧
    ∃ w', eprintf (call_cleanup example_code (0 + 1)) (some "open %s:".toList)
        [.str "/tmp/x".toList] example_world = some (.exit 2 w') :=
  ⟨rfl, rfl, rfl, eprintf_scenario example_code 0 example_world rfl rfl rfl⟩

/-- Claim C6: pr_fatal writes to stderr `Fatal ` followed by the very text
`text` that pr_display writes for the same inputs and state; the stack trace
comes next exactly when the Stacktrace flag is set; then the cleanup is run:
a registered callback is invoked, first thing after the message and the stack
trace and once only, nothing is invoked when none is registered, and the
registration is left empty; and then the process ends with exit code 2, so
pr_fatal never returns to its caller. -/
theorem pr_fatal_prints_cleans_exits (code : FnAddr → List Action) (fuel : Nat)
    (file func : Str) (line : Int) (fmt : Str) (args : List Arg) (w : World) :
    ∃ text w' tail,
      pr_display file func line (some fmt) args w = .ret () (emit text w) ∧
      pr_fatal (call_cleanup code (fuel + 1)) file func line (some fmt) args w =
        some (.exit 2 w') ∧
      w'.trace = w.trace ++ Event.flush :: (("Fatal ".toList ++ text).map Event.err ++
        (if w.Stacktrace then [Event.stack] else [])) ++ tail ∧
      tail.head? = w.Cleanup.map Event.enter ∧
      invocations tail = w.Cleanup.toList ∧
      w'.Cleanup = none := by
  obtain ⟨w', hrun, hc, tail, ht, hi, hh⟩ :=
    terminate_spec code fuel (fatal_printed file func line (message fmt args w) w)
  refine ⟨progname_sp w ++ location file func line ++ message fmt args w ++ ['\n'], w', tail,
    pr_display_eq file func line fmt args w, ?_, ?_, hh, hi, hc⟩
  · rw [pr_fatal_eq, hrun]
  · rw [ht]
    simp [fatal_printed]

/-- The failure branch of emalloc: the diagnostic shows the byte count as
`%u` renders it, modulo 2^32, with the OS error context; then the cleanup is
run and the process ends with exit code 2. -/
theorem emalloc_fails (code : FnAddr → List Action) (fuel : Nat) (malloc : Nat → Ptr)
    (n : Nat) (w : World) (hnull : malloc n = none) :
    ∃ w' tail, emalloc (call_cleanup code (fuel + 1)) malloc n w = some (.exit 2 w') ∧
      w'.trace = w.trace ++ Event.flush :: ((progname_colon w ++ ("malloc of ".toList ++
        decimal (n % 2 ^ 32) ++ " bytes failed:".toList ++ errctx w) ++ ['\n']).map
        Event.err) ++ tail ∧
      invocations tail = w.Cleanup.toList ∧ w'.Cleanup = none := by
  have hmsg : message "malloc of %u bytes failed:".toList [.size n] w =
      "malloc of ".toList ++ decimal (n % 2 ^ 32) ++ " bytes failed:".toList ++ errctx w := by
    simp [message, vformat]
  obtain ⟨w', hrun, hc, tail, ht, hi, -⟩ := terminate_spec code fuel
    (emit (progname_colon w ++ message "malloc of %u bytes failed:".toList [.size n] w ++
      ['\n']) w)
  refine ⟨w', tail, ?_, ?_, hi, hc⟩
  · show andThen (if malloc n = none then _ else _) _ = _
    rw [if_pos hnull, eprintf_eq, hrun]
    rfl
  · rw [ht, hmsg]
    simp [emit]

/-- The success branch of the allocation wrappers: the pointer the allocator
gave is returned; emalloc and erealloc leave the state as it was and ezalloc
adds the zero fill of that pointer. -/
theorem alloc_wrappers_return (cc : World → Option (Outcome Unit)) (malloc : Nat → Ptr)
    (realloc : Ptr → Nat → Ptr) (vp : Ptr) (n : Nat) (w : World) :
    (malloc n ≠ none → emalloc cc malloc n w = some (.ret (malloc n) w)) ∧
    (malloc n ≠ none → ezalloc cc malloc n w =
      some (.ret (malloc n) { w with trace := w.trace ++ [Event.memset (malloc n) n] })) ∧
    (realloc vp n ≠ none → erealloc cc realloc vp n w = some (.ret (realloc vp n) w)) := by
  refine ⟨?_, ?_, ?_⟩ <;> intro h <;> simp [emalloc, ezalloc, erealloc, h, andThen]

/-- The failure branch of the three allocation wrappers ends the process
with exit code 2: none of them returns `NULL`, and ezalloc does not reach its
zero fill. -/
theorem alloc_wrappers_fail (code : FnAddr → List Action) (fuel : Nat) (malloc : Nat → Ptr)
    (realloc : Ptr → Nat → Ptr) (vp : Ptr) (n : Nat) (w : World) :
    (malloc n = none →
      ∃ w', emalloc (call_cleanup code (fuel + 1)) malloc n w = some (.exit 2 w')) ∧
    (malloc n = none →
      ∃ w', ezalloc (call_cleanup code (fuel + 1)) malloc n w = some (.exit 2 w')) ∧
    (realloc vp n = none →
      ∃ w', erealloc (call_cleanup code (fuel + 1)) realloc vp n w = some (.exit 2 w')) := by
  refine ⟨?_, ?_, ?_⟩
  · intro h
    obtain ⟨w', hrun, -⟩ := terminate_spec code fuel
      (emit (progname_colon w ++ message "malloc of %u bytes failed:".toList [.size n] w ++
        ['\n']) w)
    refine ⟨w', ?_⟩
    show andThen (if malloc n = none then _ else _) _ = _
    rw [if_pos h, eprintf_eq, hrun]
    rfl
  · intro h
    obtain ⟨w', hrun, -⟩ := terminate_spec code fuel
      (emit (progname_colon w ++ message "malloc of %u bytes failed:".toList [.size n] w ++
        ['\n']) w)
    refine ⟨w', ?_⟩
    show andThen (if malloc n = none then _ else _) _ = _
    rw [if_pos h, eprintf_eq, hrun]
    rfl
  · intro h
    obtain ⟨w', hrun, -⟩ := terminate_spec code fuel
      (emit (progname_colon w ++ message "realloc of %u bytes failed:".toList [.size n] w ++
        ['\n']) w)
    refine ⟨w', ?_⟩
    show andThen (if realloc vp n = none then _ else _) _ = _
    rw [if_pos h, eprintf_eq, hrun]
    rfl

/-- Claim C7, at the failing input: for a request of 2^32 bytes that the
allocator refuses, the diagnostic of emalloc reads `malloc of 0 bytes failed:`,
so the byte count asked for is not in it. -/
theorem emalloc_diagnostic_loses_count (code : FnAddr → List Action) (fuel : Nat)
    (w : World) :
    ∃ w' tail, emalloc (call_cleanup code (fuel + 1)) (fun _ => none) 4294967296 w =
        some (.exit 2 w') ∧
      w'.trace = w.trace ++ Event.flush :: ((progname_colon w ++
        ("malloc of 0 bytes failed:".toList ++ errctx w) ++ ['\n']).map Event.err) ++ tail ∧
      invocations tail = w.Cleanup.toList := by
  obtain ⟨w', tail, hrun, ht, hi, -⟩ :=
    emalloc_fails code fuel (fun _ => none) 4294967296 w rfl
  refine ⟨w', tail, hrun, ?_, hi⟩
  rw [ht]
  have : decimal (4294967296 % 2 ^ 32) = ['0'] := by decide
  rw [this]
  simp

/-- Nothing runs after the termination sequence: it never returns. -/
theorem terminate_andThen (cc : World → Option (Outcome Unit)) (w : World)
    (k : Unit → World → Option (Outcome Unit)) :
    andThen (terminate cc w) k = terminate cc w := by
  unfold terminate
  cases h : cc w with
  | none => simp [andThen]
  | some o => cases o <;> simp [andThen, exit]

/-- Claim C8: for every command and every result `rc` of the shell call.  If
`rc` is 0, esystem returns and has written nothing.  If `rc` is -1, it writes
one fatal diagnostic whose message is `system: <command>:` followed by the OS
error context, with no `exit=` part, and goes into the termination sequence.
For every other `rc` it writes one fatal diagnostic whose message is
`system: <command> exit=<rc>`, `rc` in decimal, with no OS error context, and
goes into the termination sequence.  In both failure cases the process ends
with exit code 2, and one call writes one of the two messages only. -/
theorem esystem_reports (code : FnAddr → List Action) (fuel : Nat) (loc1 loc2 : Location)
    (command : Str) (rc : Int) (w : World) (h0 : rc ≠ 0) (h1 : rc ≠ -1) :
    esystem (call_cleanup code (fuel + 1)) loc1 loc2 command 0 w = some (.ret () w) ∧
    esystem (call_cleanup code (fuel + 1)) loc1 loc2 command (-1) w =
      terminate (call_cleanup code (fuel + 1))
        (fatal_printed loc1.file loc1.func loc1.line
          ("system: ".toList ++ command ++ [':'] ++ errctx w) w) ∧
    (∃ w', esystem (call_cleanup code (fuel + 1)) loc1 loc2 command (-1) w =
      some (.exit 2 w')) ∧
    esystem (call_cleanup code (fuel + 1)) loc1 loc2 command rc w =
      terminate (call_cleanup code (fuel + 1))
        (fatal_printed loc2.file loc2.func loc2.line
          ("system: ".toList ++ command ++ " exit=".toList ++ decimalInt rc) w) ∧
    (∃ w', esystem (call_cleanup code (fuel + 1)) loc1 loc2 command rc w =
      some (.exit 2 w')) := by
  have hm1 : message "system: %s:".toList [.str command] w =
      "system: ".toList ++ command ++ [':'] ++ errctx w := by
    simp [message, vformat]
  have hm2 : message "system: %s exit=%d".toList [.str command, .int rc] w =
      "system: ".toList ++ command ++ " exit=".toList ++ decimalInt rc := by
    simp [message, vformat]
  have e1 : esystem (call_cleanup code (fuel + 1)) loc1 loc2 command (-1) w =
      terminate (call_cleanup code (fuel + 1))
        (fatal_printed loc1.file loc1.func loc1.line
          ("system: ".toList ++ command ++ [':'] ++ errctx w) w) := by
    show andThen (if (-1 : Int) = -1 then _ else _) _ = _
    rw [if_pos rfl]
    show andThen (pr_fatal _ _ _ _ _ _ _) _ = _
    rw [pr_fatal_eq, terminate_andThen, hm1]
  have e2 : esystem (call_cleanup code (fuel + 1)) loc1 loc2 command rc w =
      terminate (call_cleanup code (fuel + 1))
        (fatal_printed loc2.file loc2.func loc2.line
          ("system: ".toList ++ command ++ " exit=".toList ++ decimalInt rc) w) := by
    show andThen (if rc = -1 then _ else _) _ = _
    rw [if_neg h1]
    show andThen (if rc ≠ 0 then _ else _) _ = _
    rw [if_pos h0]
    show andThen (pr_fatal _ _ _ _ _ _ _) _ = _
    rw [pr_fatal_eq, terminate_andThen, hm2]
  refine ⟨?_, e1, ?_, e2, ?_⟩
  · simp [esystem, andThen]
  · obtain ⟨w', hrun, -⟩ := terminate_spec code fuel
      (fatal_printed loc1.file loc1.func loc1.line
        ("system: ".toList ++ command ++ [':'] ++ errctx w) w)
    exact ⟨w', e1.trans hrun⟩
  · obtain ⟨w', hrun, -⟩ := terminate_spec code fuel
      (fatal_printed loc2.file loc2.func loc2.line
        ("system: ".toList ++ command ++ " exit=".toList ++ decimalInt rc) w)
    exact ⟨w', e2.trans hrun⟩

/-- Witness of claim C8: the shell answers 768, the wait status of a command
that exited with code 3. -/
theorem esystem_reports_witness :
    (768 : Int) ≠ 0 ∧ (768 : Int) ≠ -1 ∧
    esystem (call_cleanup example_code (0 + 1)) (example_loc 238) (example_loc 241)
      "false".toList 0 example_world = some (.ret () example_world) ∧
    esystem (call_cleanup example_code (0 + 1)) (example_loc 238) (example_loc 241)
      "false".toList (-1) example_world =
      terminate (call_cleanup example_code (0 + 1))
        (fatal_printed (example_loc 238).file (example_loc 238).func (example_loc 238).line
          ("system: ".toList ++ "false".toList ++ [':'] ++ errctx example_world)
          example_world) ∧
    (∃ w', esystem (call_cleanup example_code (0 + 1)) (example_loc 238) (example_loc 241)
      "false".toList (-1) example_world = some (.exit 2 w')) ∧
    esystem (call_cleanup example_code (0 + 1)) (example_loc 238) (example_loc 241)
      "false".toList 768 example_world =
      terminate (call_cleanup example_code (0 + 1))
        (fatal_printed (example_loc 241).file (example_loc 241).func (example_loc 241).line
          ("system: ".toList ++ "false".toList ++ " exit=".toList ++ decimalInt 768)
          example_world) ∧
    (∃ w', esystem (call_cleanup example_code (0 + 1)) (example_loc 238) (example_loc 241)
      "false".toList 768 example_world = some (.exit 2 w')) :=
  ⟨by decide, by decide,
    esystem_reports example_code 0 (example_loc 238) (example_loc 241) "false".toList 768
      example_world (by decide) (by decide)⟩

/-- Claim C9: pr_usage writes to stderr `Usage: `, then the program name and
one space when a name is set (nothing otherwise), then the formatted message,
then a newline, and ends the process with exit code 2.  It does not go through
the cleanup: no callback is invoked and the registration is as it was. -/
theorem pr_usage_exits_without_cleanup (fmt : Str) (args : List Arg) (w : World) :
    pr_usage (some fmt) args w =
      .exit 2 (emit ("Usage: ".toList ++ (match w.name with
        | some n => n ++ [' ']
        | none => []) ++ vformat fmt args ++ ['\n']) w) ∧
    stderr_text (pr_usage (some fmt) args w).world.trace =
      stderr_text w.trace ++ ("Usage: ".toList ++ (match w.name with
        | some n => n ++ [' ']
        | none => []) ++ vformat fmt args ++ ['\n']) ∧
    (pr_usage (some fmt) args w).world.Cleanup = w.Cleanup ∧
    invocations (pr_usage (some fmt) args w).world.trace = invocations w.trace := by
  have h := pr_usage_eq fmt args w
  refine ⟨h, ?_, ?_, ?_⟩
  · rw [h]; exact stderr_text_emit _ w
  · rw [h]; rfl
  · rw [h]; exact invocations_emit _ w

/-- Counterexample to claim C10 as stated: pr_display writes the location
segment without parentheses. -/
theorem pr_display_location_without_parentheses :
    stderr_text (pr_display "eprintf.c".toList "main".toList 42 (some "hello".toList) []
      example_world).world.trace = "tool eprintf.c:main<42> hello\n".toList ∧
    stderr_text (pr_display "eprintf.c".toList "main".toList 42 (some "hello".toList) []
      example_world).world.trace ≠
      progname_sp example_world ++ location_in_parens "eprintf.c".toList "main".toList 42 ++
        message "hello".toList [] example_world ++ ['\n'] := by
  decide

/-- Claim C10, amended: pr_display writes to stderr, in order, the program
name and one space when a name is set (nothing otherwise); the location
segment, which is the file, a colon, the function, `<`, the line in decimal,
`>` and one space, with no parentheses; the formatted message; the OS error
context when the format ends with a colon; and one newline.  It then returns
to its caller: the process is not terminated and the cleanup callback is
neither invoked nor cleared. -/
theorem pr_display_writes_and_returns (file func : Str) (line : Int) (fmt : Str)
    (args : List Arg) (w : World) :
    pr_display file func line (some fmt) args w =
      .ret () (emit ((match w.name with
        | some n => n ++ [' ']
        | none => []) ++ (file ++ ':' :: (func ++ '<' :: (decimalInt line ++ ['>', ' ']))) ++
        (vformat fmt args ++ (if fmt.getLast? = some ':' then errctx w else [])) ++ ['\n']) w) ∧
    stderr_text (pr_display file func line (some fmt) args w).world.trace =
      stderr_text w.trace ++ ((match w.name with
        | some n => n ++ [' ']
        | none => []) ++ (file ++ ':' :: (func ++ '<' :: (decimalInt line ++ ['>', ' ']))) ++
        (vformat fmt args ++ (if fmt.getLast? = some ':' then errctx w else [])) ++ ['\n']) ∧
    (pr_display file func line (some fmt) args w).world.Cleanup = w.Cleanup ∧
    invocations (pr_display file func line (some fmt) args w).world.trace =
      invocations w.trace := by
  have h := pr_display_eq file func line fmt args w
  refine ⟨h, ?_, ?_, ?_⟩
  · rw [h]; exact stderr_text_emit _ w
  · rw [h]; rfl
  · rw [h]; exact invocations_emit _ w

end Punybench
